import Mathlib

/-!
# SampleGuard core — shallow embedding and verification

This file embeds the core of the SampleGuard RFID sample-tracking system in
Lean 4 and proves properties of the embedded code.

Modelling conventions:
* Bytes are `Nat` values; byte sequences (`Vec<u8>`, `&[u8]`) are `List Nat`.
* `chrono::DateTime<Utc>` instants are `Int` nanoseconds since the Unix epoch;
  `timestamp()` is floor division by `10^9`, and `chrono`'s
  `TimeDelta::num_days` truncates toward zero, mirrored by `Int.tdiv`.
* AES-256 block encryption/decryption and SHA-256 are external library
  primitives, not source of this repository; they are abstracted into a
  `CryptoModel` record of functions.  The CBC chaining, PKCS#7 padding, IV
  handling and length checks — which *are* source code of `encryption.rs`
  (together with the exact padding behaviour of the `cbc` crate it calls) —
  are embedded concretely over those primitives.  Properties of the
  primitives that the source relies on (AES is a length-preserving
  permutation of 16-byte blocks; SHA-256 is collision-free on the inputs at
  hand) appear as explicit hypotheses of the theorems.
* The random IV drawn inside `encrypt`, the RNG behind the simulator's
  `should_error` gate, and wall-clock time in `scan_tags` are sources of
  nondeterminism; they are passed in as parameters (an IV argument, a stream
  of gate booleans, and a fuel bound on loop iterations).
* Wall-clock sleeps only consume time and are dropped.
-/

namespace SampleGuard

/-- UTF-8-ish bytes of an ASCII string literal (all string constants in the
modelled code are ASCII, where UTF-8 bytes coincide with code points). -/
def strBytes (s : String) : List Nat :=
  s.toList.map (fun c => c.toNat)

/-- Componentwise xor of two byte lists (used by CBC chaining). -/
def xorBytes (a b : List Nat) : List Nat :=
  List.zipWith (fun x y => x ^^^ y) a b

/-- Big-endian bytes of a `u64` value (`u64::to_be_bytes`). -/
def beBytesOfU64 (u : Nat) : List Nat :=
  [u / 2 ^ 56 % 256, u / 2 ^ 48 % 256, u / 2 ^ 40 % 256, u / 2 ^ 32 % 256,
   u / 2 ^ 24 % 256, u / 2 ^ 16 % 256, u / 2 ^ 8 % 256, u % 256]

/-- Reinterpret an `i64` as a `u64` (two's complement), as `to_be_bytes` does
(`%` on `Int` is Euclidean remainder, non-negative here). -/
def i64ToU64 (n : Int) : Nat :=
  (n % 2 ^ 64).toNat

/-- Big-endian bytes of an `i64` value (`i64::to_be_bytes`). -/
def i64BeBytes (n : Int) : List Nat :=
  beBytesOfU64 (i64ToU64 n)

/-- `SampleGuardError` from `error.rs`.  The `IoError`, `SerializationError`
and `IntegrityViolation` variants wrap external std/serde values and are not
reachable from the modelled core, so they are omitted. -/
inductive SampleGuardError
  | ReaderError (msg : String)
  | EncryptionError (msg : String)
  | TagParseError (msg : String)
  | InvalidSampleData (msg : String)
  | TagMemoryError (msg : String)
  deriving DecidableEq, Repr

/-- `Display` rendering of `SampleGuardError` (the `#[error(...)]` attributes
of `error.rs`), used where the source calls `e.to_string()`. -/
def SampleGuardError.toMessage : SampleGuardError → String
  | .ReaderError m => "RFID reader error: " ++ m
  | .EncryptionError m => "Encryption error: " ++ m
  | .TagParseError m => "Tag parsing error: " ++ m
  | .InvalidSampleData m => "Invalid sample data: " ++ m
  | .TagMemoryError m => "Tag memory error: " ++ m

/-- Abstraction of the external cryptographic primitives used by
`encryption.rs`: AES-256 single-block encryption/decryption keyed by the
256-bit key, and the SHA-256 digest.  These are library code (the `aes` and
`sha2` crates), not source of this repository, so they are held abstract;
everything built on top of them is embedded concretely. -/
structure CryptoModel where
  encBlock : List Nat → List Nat → List Nat
  decBlock : List Nat → List Nat → List Nat
  hash : List Nat → List Nat

/-- `RFIDEncryption` from `encryption.rs`: holds the 256-bit key. -/
structure RFIDEncryption where
  key : List Nat

/-- `RFIDEncryption::new`: derives the key by hashing the caller-supplied
master key material once. -/
def RFIDEncryption.new (cm : CryptoModel) (master_key : List Nat) : RFIDEncryption :=
  ⟨cm.hash master_key⟩

/-- `RFIDEncryption::pad_pkcs7`: appends `block_size - len % block_size`
copies of that count (a whole extra block for already-aligned input). -/
def RFIDEncryption.pad_pkcs7 (data : List Nat) (block_size : Nat) : List Nat :=
  data ++ List.replicate (block_size - data.length % block_size)
    (block_size - data.length % block_size)

/-- Split a byte list into consecutive 16-byte chunks (the block traversal of
the `cbc` crate).  Structured as fuel recursion on the length so it reduces
definitionally. -/
def chunk16Aux : Nat → List Nat → List (List Nat)
  | 0, _ => []
  | fuel + 1, l => if l = [] then [] else l.take 16 :: chunk16Aux fuel (l.drop 16)

/-- Split a byte list into consecutive 16-byte chunks. -/
def chunk16 (l : List Nat) : List (List Nat) :=
  chunk16Aux l.length l

/-- CBC-mode encryption over a list of plaintext blocks with running chaining
value `prev` (initially the IV): `Cᵢ = E(Pᵢ xor Cᵢ₋₁)`. -/
def cbcEncBlocks (cm : CryptoModel) (key : List Nat) : List Nat → List (List Nat) → List (List Nat)
  | _, [] => []
  | prev, b :: bs =>
    let c := cm.encBlock key (xorBytes b prev)
    c :: cbcEncBlocks cm key c bs

/-- CBC-mode decryption over a list of ciphertext blocks with running
chaining value `prev` (initially the IV): `Pᵢ = D(Cᵢ) xor Cᵢ₋₁`. -/
def cbcDecBlocks (cm : CryptoModel) (key : List Nat) : List Nat → List (List Nat) → List (List Nat)
  | _, [] => []
  | prev, c :: cs => xorBytes (cm.decBlock key c) prev :: cbcDecBlocks cm key c cs

/-- `RFIDEncryption::encrypt` from `encryption.rs`.  The randomly drawn IV is
a parameter.  The two fallible steps of the source (`new_from_slices` on a
32-byte key and 16-byte IV, and `encrypt_padded_mut` on an exactly
block-aligned buffer) cannot fail for those fixed sizes, so the embedding is
total.  The source pads manually with `pad_pkcs7` and then calls
`encrypt_padded_mut::<Pkcs7>` with `msg_len = plaintext.len()`, which
rewrites the identical PKCS#7 bytes over the tail; the ciphertext is the CBC
encryption of the padded buffer, and the IV is prepended. -/
def RFIDEncryption.encrypt (cm : CryptoModel) (self : RFIDEncryption)
    (iv plaintext : List Nat) : List Nat :=
  let padded := RFIDEncryption.pad_pkcs7 plaintext 16
  let buffer := (cbcEncBlocks cm self.key iv (chunk16 padded)).flatten
  iv ++ buffer

/-- Strict PKCS#7 unpadding as performed by the `cbc` crate's
`decrypt_padded_mut::<Pkcs7>`: the last byte `n` must satisfy
`1 ≤ n ≤ 16` and the last `n` bytes must all equal `n`.  The exact error
message embeds the library's `UnpadError` display and is abstracted. -/
def unpadPkcs7 (data : List Nat) : Except SampleGuardError (List Nat) :=
  match data.getLast? with
  | none => .error (.EncryptionError "Decryption failed: invalid padding")
  | some n =>
    if n = 0 ∨ n > 16 ∨ n > data.length then
      .error (.EncryptionError "Decryption failed: invalid padding")
    else if (data.drop (data.length - n)).all (fun x => x = n) then
      .ok (data.take (data.length - n))
    else
      .error (.EncryptionError "Decryption failed: invalid padding")

/-- `RFIDEncryption::decrypt` from `encryption.rs`: rejects inputs shorter
than 32 bytes with the source's exact message, splits IV and data, requires
the data to be a whole number of blocks (the `cbc` crate fails otherwise),
CBC-decrypts and strips padding. -/
def RFIDEncryption.decrypt (cm : CryptoModel) (self : RFIDEncryption)
    (ciphertext : List Nat) : Except SampleGuardError (List Nat) :=
  if ciphertext.length < 32 then
    .error (.EncryptionError
      "Ciphertext too short (need at least 32 bytes: 16 IV + 16 encrypted)")
  else
    let iv := ciphertext.take 16
    let encrypted_data := ciphertext.drop 16
    if encrypted_data.length % 16 ≠ 0 then
      .error (.EncryptionError "Decryption failed: invalid ciphertext length")
    else
      unpadPkcs7 ((cbcDecBlocks cm self.key iv (chunk16 encrypted_data)).flatten)

/-! ## Tag memory layout (`tag.rs`) -/

/-- `TagMemoryLayout` from `tag.rs`. -/
structure TagMemoryLayout where
  header : List Nat
  payload : List Nat
  integrity_hash : List Nat
  metadata : List Nat
  deriving DecidableEq, Repr

/-- `RFIDTag` from `tag.rs`. -/
structure RFIDTag where
  tag_id : String
  memory_layout : TagMemoryLayout
  encryption_enabled : Bool
  deriving DecidableEq, Repr

/-- `RFIDTag::new` from `tag.rs`: encrypts the payload with the given
(parametrised) IV, hashes the ciphertext into the integrity digest, sets the
three header flag bytes, and stores the current Unix-seconds timestamp
(`SystemTime::now`, a `u64` parameter here) in the first 8 metadata bytes. -/
def RFIDTag.new (cm : CryptoModel) (encryption : RFIDEncryption) (iv : List Nat)
    (timestamp : Nat) (tag_id : String) (payload : List Nat) : RFIDTag :=
  let encrypted_payload := RFIDEncryption.encrypt cm encryption iv payload
  let integrity_hash := cm.hash encrypted_payload
  let header := [1, 1, 1] ++ List.replicate 13 0
  let metadata := beBytesOfU64 (timestamp % 2 ^ 64) ++ List.replicate 8 0
  { tag_id := tag_id
    memory_layout :=
      { header := header
        payload := encrypted_payload
        integrity_hash := integrity_hash
        metadata := metadata }
    encryption_enabled := true }

/-- `RFIDTag::decrypt_payload` from `tag.rs`: recomputes the digest over the
stored (encrypted) payload and fails with `TagMemoryError` on mismatch before
any decryption is attempted. -/
def RFIDTag.decrypt_payload (cm : CryptoModel) (self : RFIDTag)
    (encryption : RFIDEncryption) : Except SampleGuardError (List Nat) :=
  let calculated_hash := cm.hash self.memory_layout.payload
  if calculated_hash ≠ self.memory_layout.integrity_hash then
    .error (.TagMemoryError "Integrity hash mismatch - tag may be corrupted")
  else
    RFIDEncryption.decrypt cm encryption self.memory_layout.payload

/-- The tamper operation of the claim: flip bit `b` of the byte at index `i`. -/
def flipBit (l : List Nat) (i b : Nat) : List Nat :=
  l.set i (l.getD i 0 ^^^ 2 ^ b)

/-- A tag whose encrypted payload has had one bit flipped. -/
def tamperPayload (tag : RFIDTag) (i b : Nat) : RFIDTag :=
  { tag with memory_layout :=
      { tag.memory_layout with payload := flipBit tag.memory_layout.payload i b } }

/-! ## Hardware simulator (`hardware/simulator.rs`) -/

/-- `SimulatedTag` from `hardware/simulator.rs`.  `error_rate` is an `f32`
probability; it only feeds the RNG gate, which is modelled by explicit gate
booleans, so the field is carried as an exact rational. -/
structure SimulatedTag where
  epc : String
  tag_id : String
  data : List Nat
  rssi : Int
  antenna : Nat
  read_count : Nat
  last_read : Option Int
  error_rate : Rat
  deriving DecidableEq, Repr

/-- `TagSimulator` from `hardware/simulator.rs`.  The `HashMap<String,
SimulatedTag>` registry keyed by EPC is modelled as a list in some iteration
order; the delays are milliseconds. -/
structure TagSimulator where
  tags : List SimulatedTag
  read_delay : Nat
  write_delay : Nat
  network_delay : Nat
  deriving DecidableEq, Repr

/-- `TagSimulator::new`. -/
def TagSimulator.new : TagSimulator :=
  { tags := [], read_delay := 10, write_delay := 50, network_delay := 5 }

/-- `TagSimulator::read_tag`: looks the tag up (`ReaderError` if absent),
consults the error gate (`should_error`, modelled by the `gate` boolean)
before any mutation, then increments the read counter, stamps `last_read`
with the current time and returns a copy of the payload. -/
def TagSimulator.read_tag (self : TagSimulator) (gate : Bool) (now : Int)
    (epc : String) : Except SampleGuardError (List Nat) × TagSimulator :=
  match self.tags.find? (fun t => t.epc == epc) with
  | none => (.error (.ReaderError ("Tag " ++ epc ++ " not found")), self)
  | some t =>
    if gate then
      (.error (.ReaderError "Tag read error (simulated)"), self)
    else
      (.ok t.data,
       { self with tags := self.tags.map (fun u =>
           if u.epc == epc then
             { u with read_count := u.read_count + 1, last_read := some now }
           else u) })

/-- `TagSimulator::write_tag`: same lookup/error-gate sequencing as
`read_tag`, then replaces the payload and increments the counter. -/
def TagSimulator.write_tag (self : TagSimulator) (gate : Bool) (now : Int)
    (epc : String) (data : List Nat) : Except SampleGuardError Unit × TagSimulator :=
  match self.tags.find? (fun t => t.epc == epc) with
  | none => (.error (.ReaderError ("Tag " ++ epc ++ " not found")), self)
  | some _ =>
    if gate then
      (.error (.ReaderError "Tag write error (simulated)"), self)
    else
      (.ok (),
       { self with tags := self.tags.map (fun u =>
           if u.epc == epc then
             { u with data := data, read_count := u.read_count + 1,
                      last_read := some now }
           else u) })

/-- One pass of the `for tag in self.tags.values()` loop inside `scan_tags`:
a tag is collected when its RSSI clears the `-80` visibility floor, it is not
already in `found_tags`, and its error gate does not fire.  The gate stream
`gates` is consumed at index `k` exactly where the source draws from the RNG
(only for visible, not-yet-found tags). -/
def scanPass (gates : Nat → Bool) : Nat → List SimulatedTag → List SimulatedTag →
    List SimulatedTag × Nat
  | k, [], found => (found, k)
  | k, t :: rest, found =>
    if t.rssi > -80 ∧ ¬(found.any (fun f => f.epc == t.epc)) then
      if gates k then scanPass gates (k + 1) rest found
      else scanPass gates (k + 1) rest (found ++ [t])
    else
      scanPass gates k rest found

/-- The `while start.elapsed() < duration && found_tags.len() <
self.tags.len()` loop of `scan_tags`; `fuel` models the remaining wall-clock
budget (each iteration sleeps 10 ms). -/
def scanLoop (gates : Nat → Bool) (tags : List SimulatedTag) :
    Nat → Nat → List SimulatedTag → List SimulatedTag
  | 0, _, found => found
  | fuel + 1, k, found =>
    if found.length < tags.length then
      let fk := scanPass gates k tags found
      scanLoop gates tags fuel fk.2 fk.1
    else found

/-- `TagSimulator::scan_tags`: time-bounded passive scan.  The source takes
`&mut self` but never writes to any tag or registry field, so the state comes
back unchanged. -/
def TagSimulator.scan_tags (self : TagSimulator) (gates : Nat → Bool)
    (fuel : Nat) : List SimulatedTag × TagSimulator :=
  (scanLoop gates self.tags fuel 0 [], self)

/-! ## Reader protocol (`hardware/protocol.rs`) -/

/-- `MemoryBank` from `hardware/protocol.rs`. -/
inductive MemoryBank
  | Reserved
  | Epc
  | Tid
  | User
  deriving DecidableEq, Repr

/-- `ReaderCommand` from `hardware/protocol.rs`. -/
inductive ReaderCommand
  | Initialize
  | StartInventory
  | StopInventory
  | ReadTag (epc : String) (bank : MemoryBank)
  | WriteTag (epc : String) (bank : MemoryBank) (data : List Nat)
  | GetConfiguration
  | SetConfiguration (power : Nat) (antenna : Nat)
  | GetStatus
  deriving DecidableEq, Repr

/-- `ProtocolResponse` from `hardware/protocol.rs`.  The wall-clock
`timestamp` and measured `response_time_ms` fields are dropped (real time is
not modelled). -/
structure ProtocolResponse where
  success : Bool
  data : Option (List Nat)
  error : Option String
  deriving DecidableEq, Repr

/-- `ProtocolResponse::success` (named `mkSuccess` because `success` is the
field selector). -/
def ProtocolResponse.mkSuccess (data : List Nat) : ProtocolResponse :=
  { success := true, data := some data, error := none }

/-- `ProtocolResponse::error` (named `mkError` because `error` is the field
selector). -/
def ProtocolResponse.mkError (error : String) : ProtocolResponse :=
  { success := false, data := none, error := some error }

/-! ## Vendor adapters (`hardware/impinj.rs`, `hardware/zebra.rs`) -/

/-- The serde_json bytes of the Impinj `GetConfiguration` response.  The
exact JSON rendering is external serde behaviour no claim depends on; only
that the response succeeds matters. -/
def impinjConfigBytes (power_level : Nat) : List Nat :=
  [power_level]

/-- The serde_json bytes of the Impinj `GetStatus` response (abstracted, as
for `impinjConfigBytes`). -/
def impinjStatusBytes (connected : Bool) (tags_in_range : Nat) : List Nat :=
  [if connected then 1 else 0, tags_in_range]

/-- The serde_json bytes of the Zebra `GetConfiguration` response
(abstracted). -/
def zebraConfigBytes (reader_id : String) (power_level : Nat) : List Nat :=
  strBytes reader_id ++ [power_level]

/-- The serde_json bytes of the Zebra `GetStatus` response (abstracted). -/
def zebraStatusBytes (reader_id : String) (connected : Bool)
    (tags_in_range : Nat) : List Nat :=
  strBytes reader_id ++ [if connected then 1 else 0, tags_in_range]

/-- `ImpinjSpeedwayReader` from `hardware/impinj.rs`.  Of `ReaderConfig` only
`power_level` is observable through the modelled commands; `capabilities` and
the constant `protocol_version` string are carried as constants below. -/
structure ImpinjSpeedwayReader where
  power_level : Nat
  simulator : TagSimulator
  connected : Bool
  deriving DecidableEq, Repr

/-- `ImpinjSpeedwayReader::new`: power 30, simulator delays 15/120/8 ms,
disconnected. -/
def ImpinjSpeedwayReader.new : ImpinjSpeedwayReader :=
  { power_level := 30
    simulator := { tags := [], read_delay := 15, write_delay := 120, network_delay := 8 }
    connected := false }

/-- The arms of the Impinj `send_command` match that sit *after* the
`_ if !self.connected` guard (so they are only reached while connected).
The `Initialize` arm here is unreachable — `send_command` handles it first —
and is given the same behaviour for exhaustiveness. -/
def ImpinjSpeedwayReader.connectedCommand (self : ImpinjSpeedwayReader)
    (gate : Bool) (now : Int) :
    ReaderCommand → ProtocolResponse × ImpinjSpeedwayReader
  | .Initialize =>
    (ProtocolResponse.mkSuccess (strBytes "Impinj Speedway Reader initialized"),
     { self with connected := true })
  | .StartInventory => (ProtocolResponse.mkSuccess (strBytes "Inventory started"), self)
  | .StopInventory => (ProtocolResponse.mkSuccess (strBytes "Inventory stopped"), self)
  | .ReadTag epc _ =>
    let r := TagSimulator.read_tag self.simulator gate now epc
    match r.1 with
    | .ok data => (ProtocolResponse.mkSuccess data, { self with simulator := r.2 })
    | .error e => (ProtocolResponse.mkError e.toMessage, { self with simulator := r.2 })
  | .WriteTag epc _ data =>
    let r := TagSimulator.write_tag self.simulator gate now epc data
    match r.1 with
    | .ok _ => (ProtocolResponse.mkSuccess (strBytes "Write successful"),
                { self with simulator := r.2 })
    | .error e => (ProtocolResponse.mkError e.toMessage, { self with simulator := r.2 })
  | .GetConfiguration =>
    (ProtocolResponse.mkSuccess (impinjConfigBytes self.power_level), self)
  | .SetConfiguration power _ =>
    (ProtocolResponse.mkSuccess (strBytes "Configuration updated"),
     { self with power_level := power })
  | .GetStatus =>
    (ProtocolResponse.mkSuccess
      (impinjStatusBytes self.connected self.simulator.tags.length), self)

/-- `ImpinjSpeedwayReader::send_command` from `hardware/impinj.rs`: the
`Initialize` arm connects and succeeds; then the `_ if !self.connected`
guard rejects *every other* command — `GetStatus` included — with
"Reader not connected"; the remaining arms run connected. -/
def ImpinjSpeedwayReader.send_command (self : ImpinjSpeedwayReader)
    (gate : Bool) (now : Int) (command : ReaderCommand) :
    ProtocolResponse × ImpinjSpeedwayReader :=
  match command with
  | .Initialize =>
    (ProtocolResponse.mkSuccess (strBytes "Impinj Speedway Reader initialized"),
     { self with connected := true })
  | c =>
    if self.connected = false then
      (ProtocolResponse.mkError "Reader not connected", self)
    else
      ImpinjSpeedwayReader.connectedCommand self gate now c

/-- `ZebraFX9600Reader` from `hardware/zebra.rs`.  The random `reader_id`
drawn in `new` is a parameter. -/
structure ZebraFX9600Reader where
  power_level : Nat
  simulator : TagSimulator
  connected : Bool
  reader_id : String
  deriving DecidableEq, Repr

/-- `ZebraFX9600Reader::new`: power 27, simulator delays 12/90/6 ms,
disconnected; the randomly generated reader id is passed in. -/
def ZebraFX9600Reader.new (reader_id : String) : ZebraFX9600Reader :=
  { power_level := 27
    simulator := { tags := [], read_delay := 12, write_delay := 90, network_delay := 6 }
    connected := false
    reader_id := reader_id }

/-- The one-byte memory-bank marker Zebra prepends to read responses. -/
def bankByte : MemoryBank → Nat
  | .Reserved => 0
  | .Epc => 1
  | .Tid => 2
  | .User => 3

/-- The post-guard arms of the Zebra `send_command` match (see
`ImpinjSpeedwayReader.connectedCommand`); Zebra prefixes read responses with
the memory-bank byte and echoes power/antenna in `SetConfiguration`. -/
def ZebraFX9600Reader.connectedCommand (self : ZebraFX9600Reader)
    (gate : Bool) (now : Int) :
    ReaderCommand → ProtocolResponse × ZebraFX9600Reader
  | .Initialize =>
    (ProtocolResponse.mkSuccess
      (strBytes ("Zebra FX9600 " ++ self.reader_id ++ " initialized")),
     { self with connected := true })
  | .StartInventory =>
    (ProtocolResponse.mkSuccess (strBytes "Inventory session started"), self)
  | .StopInventory =>
    (ProtocolResponse.mkSuccess (strBytes "Inventory session stopped"), self)
  | .ReadTag epc bank =>
    let r := TagSimulator.read_tag self.simulator gate now epc
    match r.1 with
    | .ok data => (ProtocolResponse.mkSuccess (bankByte bank :: data),
                   { self with simulator := r.2 })
    | .error e => (ProtocolResponse.mkError e.toMessage, { self with simulator := r.2 })
  | .WriteTag epc _ data =>
    let r := TagSimulator.write_tag self.simulator gate now epc data
    match r.1 with
    | .ok _ => (ProtocolResponse.mkSuccess (strBytes "Tag write completed"),
                { self with simulator := r.2 })
    | .error e => (ProtocolResponse.mkError e.toMessage, { self with simulator := r.2 })
  | .GetConfiguration =>
    (ProtocolResponse.mkSuccess (zebraConfigBytes self.reader_id self.power_level), self)
  | .SetConfiguration power antenna =>
    (ProtocolResponse.mkSuccess
      (strBytes ("Configuration updated: power=" ++ toString power
        ++ ", antenna=" ++ toString antenna)),
     { self with power_level := power })
  | .GetStatus =>
    (ProtocolResponse.mkSuccess
      (zebraStatusBytes self.reader_id self.connected self.simulator.tags.length), self)

/-- `ZebraFX9600Reader::send_command` from `hardware/zebra.rs`: same
`Initialize`-then-guard structure as the Impinj adapter. -/
def ZebraFX9600Reader.send_command (self : ZebraFX9600Reader)
    (gate : Bool) (now : Int) (command : ReaderCommand) :
    ProtocolResponse × ZebraFX9600Reader :=
  match command with
  | .Initialize =>
    (ProtocolResponse.mkSuccess
      (strBytes ("Zebra FX9600 " ++ self.reader_id ++ " initialized")),
     { self with connected := true })
  | c =>
    if self.connected = false then
      (ProtocolResponse.mkError "Reader not connected", self)
    else
      ZebraFX9600Reader.connectedCommand self gate now c

/-! ## Driver orchestrator (`hardware/driver.rs`) -/

/-- `DriverEvent` from `hardware/driver.rs`. -/
inductive DriverEvent
  | ReaderInitialized (reader_type : String) (protocol : String)
  | TagDetected (epc : String) (rssi : Int) (antenna : Nat)
  | TagRead (epc : String) (data_size : Nat) (duration_ms : Nat)
  | TagWritten (epc : String) (data_size : Nat) (duration_ms : Nat)
  | InventoryStarted (reader_type : String)
  | InventoryCompleted (reader_type : String) (tags_found : Nat)
  | Error (reader_type : String) (error : String)
  | ConfigurationChanged (reader_type : String) (setting : String)
  | NetworkDelay (reader_type : String) (delay_ms : Nat)
  | ProtocolMessage (reader_type : String) (command : String) (response_time_ms : Nat)
  deriving DecidableEq, Repr

/-- `HardwareDriver` from `hardware/driver.rs`.  The single-producer /
single-consumer mpsc event channel local to the driver is modelled as the
list of logged events. -/
structure HardwareDriver where
  impinj_reader : ImpinjSpeedwayReader
  zebra_reader : ZebraFX9600Reader
  events : List DriverEvent

/-- `HardwareDriver::new` (the Zebra reader id is the random draw,
parametrised). -/
def HardwareDriver.new (zebra_id : String) : HardwareDriver :=
  { impinj_reader := ImpinjSpeedwayReader.new
    zebra_reader := ZebraFX9600Reader.new zebra_id
    events := [] }

/-- `HardwareDriver::perform_inventory_scan` from `hardware/driver.rs`: runs
the Impinj adapter's simulator scan, then the Zebra adapter's simulator scan
(sequentially), logs start/complete events for both plus a `TagDetected`
event per *Impinj* tag — and returns the EPCs of the Impinj scan only.  Each
scan's nondeterminism is its own gate stream and fuel. -/
def HardwareDriver.perform_inventory_scan (self : HardwareDriver)
    (gatesI gatesZ : Nat → Bool) (fuelI fuelZ : Nat) :
    List String × HardwareDriver :=
  let scanI := TagSimulator.scan_tags self.impinj_reader.simulator gatesI fuelI
  let impinj_tags := scanI.1
  let scanZ := TagSimulator.scan_tags self.zebra_reader.simulator gatesZ fuelZ
  let zebra_tags := scanZ.1
  let events := self.events
    ++ [DriverEvent.InventoryStarted "Impinj Speedway",
        DriverEvent.InventoryCompleted "Impinj Speedway" impinj_tags.length,
        DriverEvent.InventoryStarted "Zebra FX9600",
        DriverEvent.InventoryCompleted "Zebra FX9600" zebra_tags.length]
    ++ impinj_tags.map (fun t => DriverEvent.TagDetected t.epc t.rssi t.antenna)
  (impinj_tags.map SimulatedTag.epc,
   { self with
       impinj_reader := { self.impinj_reader with simulator := scanI.2 }
       zebra_reader := { self.zebra_reader with simulator := scanZ.2 }
       events := events })

/-! ## Samples (`sample.rs`) -/

/-- `SampleStatus` from `sample.rs`. -/
inductive SampleStatus
  | InProduction
  | InTransit
  | Stored
  | InUse
  | Consumed
  | Discarded
  | Compromised
  deriving DecidableEq, Repr

/-- `SampleMetadata` from `sample.rs`; temperatures are `f32` in the source
and are carried as exact rationals (the validator only compares them). -/
structure SampleMetadata where
  batch_number : String
  production_date : Int
  expiry_date : Option Int
  temperature_range : Option (Rat × Rat)
  storage_conditions : String
  manufacturer : String
  product_line : String
  deriving DecidableEq, Repr

/-- `Sample` from `sample.rs` (the `Uuid` is carried as a string). -/
structure Sample where
  id : String
  sample_id : String
  status : SampleStatus
  metadata : SampleMetadata
  created_at : Int
  last_updated : Int
  read_count : Nat
  location : Option String
  integrity_checksum : List Nat
  deriving DecidableEq, Repr

/-- `Sample::calculate_checksum` from `sample.rs`: SHA-256 (the abstract
`hashF`) over `sample_id` bytes, `batch_number` bytes and the big-endian
bytes of `timestamp.timestamp()` (whole Unix seconds, floor of the
nanosecond instant). -/
def Sample.calculate_checksum (hashF : List Nat → List Nat) (sample_id : String)
    (metadata : SampleMetadata) (timestamp : Int) : List Nat :=
  hashF (strBytes sample_id ++ strBytes metadata.batch_number
    ++ i64BeBytes (Int.fdiv timestamp 1000000000))

/-- `Sample::verify_integrity` from `sample.rs`: recomputes the checksum from
the *current* `last_updated` and compares with the stored checksum. -/
def Sample.verify_integrity (hashF : List Nat → List Nat) (self : Sample) : Bool :=
  Sample.calculate_checksum hashF self.sample_id self.metadata self.last_updated
    == self.integrity_checksum

/-- `Sample::update_location` from `sample.rs`: sets the location and stamps
`last_updated` — and does *not* recompute `integrity_checksum`. -/
def Sample.update_location (self : Sample) (location : String) (now : Int) : Sample :=
  { self with location := some location, last_updated := now }

/-- `Sample::increment_read_count` from `sample.rs`: bumps the counter and
stamps `last_updated` — and does *not* recompute `integrity_checksum`. -/
def Sample.increment_read_count (self : Sample) (now : Int) : Sample :=
  { self with read_count := self.read_count + 1, last_updated := now }

/-- `Sample::update_status` from `sample.rs` (this one *does* recompute the
checksum). -/
def Sample.update_status (hashF : List Nat → List Nat) (self : Sample)
    (new_status : SampleStatus) (now : Int) : Sample :=
  { self with
      status := new_status
      last_updated := now
      integrity_checksum :=
        Sample.calculate_checksum hashF self.sample_id self.metadata now }

/-- `Sample::is_expired` from `sample.rs`: `Utc::now() > expiry` when an
expiry date is present. -/
def Sample.is_expired (self : Sample) (now : Int) : Bool :=
  match self.metadata.expiry_date with
  | some expiry => decide (now > expiry)
  | none => false

/-- `chrono::TimeDelta::num_days` of the difference of two nanosecond
instants: whole seconds truncated toward zero, then whole days truncated
toward zero (Rust `i64` division). -/
def numDaysOfNanos (d : Int) : Int :=
  Int.tdiv (Int.tdiv d 1000000000) 86400

/-! ## Integrity validator (`integrity.rs`) -/

/-- `Violation` from `integrity.rs`. -/
inductive Violation
  | ChecksumMismatch
  | Expired
  | StatusInvalid
  | TemperatureOutOfRange
  | ReadCountAnomaly
  | TimestampAnomaly
  deriving DecidableEq, Repr

/-- `Warning` from `integrity.rs`. -/
inductive Warning
  | HighReadCount
  | ApproachingExpiry
  | LocationChanged
  deriving DecidableEq, Repr

/-- `ValidationResult` from `integrity.rs`. -/
structure ValidationResult where
  is_valid : Bool
  violations : List Violation
  warnings : List Warning
  deriving DecidableEq, Repr

/-- `IntegrityValidator` from `integrity.rs`. -/
structure IntegrityValidator where
  max_read_count : Nat
  temperature_tolerance : Rat
  deriving DecidableEq, Repr

/-- `IntegrityValidator::new`. -/
def IntegrityValidator.new : IntegrityValidator :=
  { max_read_count := 1000, temperature_tolerance := 2 }

/-- `IntegrityValidator::validate` from `integrity.rs`.  The source pushes
onto `violations`/`warnings` vectors in program order; each `if/else if`
block of the source is transcribed with its conditions unchanged, splitting
a block that touches both vectors into its violation part and its warning
part (re-testing the same condition).  The source wraps the result in
`Ok(..)` with no error path, so the embedding returns the result directly.
`now` is the instant at which the validator's `Utc::now()` calls (and the
`is_expired` call inside them) are made. -/
def IntegrityValidator.validate (hashF : List Nat → List Nat)
    (self : IntegrityValidator) (sample : Sample) (now : Int) : ValidationResult :=
  let violations : List Violation := []
  let warnings : List Warning := []
  -- Check integrity checksum
  let violations :=
    if Sample.verify_integrity hashF sample = false then
      violations ++ [Violation.ChecksumMismatch]
    else violations
  -- Check expiry
  let violations :=
    if Sample.is_expired sample now then violations ++ [Violation.Expired]
    else violations
  let warnings :=
    if Sample.is_expired sample now then warnings
    else
      match sample.metadata.expiry_date with
      | some expiry =>
        let days_until_expiry := numDaysOfNanos (expiry - now)
        if days_until_expiry ≤ 30 ∧ days_until_expiry > 0 then
          warnings ++ [Warning.ApproachingExpiry]
        else warnings
      | none => warnings
  -- Check status validity
  let violations :=
    if sample.status = SampleStatus.Compromised then
      violations ++ [Violation.StatusInvalid]
    else violations
  -- Check read count anomalies
  let violations :=
    if sample.read_count > self.max_read_count then
      violations ++ [Violation.ReadCountAnomaly]
    else violations
  let warnings :=
    if sample.read_count > self.max_read_count then warnings
    else if sample.read_count > self.max_read_count / 2 then
      warnings ++ [Warning.HighReadCount]
    else warnings
  -- Check timestamp anomalies
  let violations :=
    if sample.last_updated > now then violations ++ [Violation.TimestampAnomaly]
    else violations
  -- Temperature range validation (if applicable)
  let violations :=
    match sample.metadata.temperature_range with
    | some (min_temp, max_temp) =>
      if min_temp ≥ max_temp then violations ++ [Violation.TemperatureOutOfRange]
      else violations
    | none => violations
  { is_valid := violations.isEmpty, violations := violations, warnings := warnings }

/-! ### Rule-by-rule decomposition of the validator

Each of the six rules, as an independent function of the sample alone (plus
validator parameters and the clock).  `IntegrityValidator.validate` is proved
equal to the ordered concatenation of these, which is the formal sense in
which no rule's outcome can suppress another rule's outcome. -/

/-- Rule 1 (checksum) violations. -/
def checksumRuleViolations (hashF : List Nat → List Nat) (s : Sample) : List Violation :=
  if Sample.verify_integrity hashF s = false then [Violation.ChecksumMismatch] else []

/-- Rule 2 (expiry) violations. -/
def expiryRuleViolations (s : Sample) (now : Int) : List Violation :=
  if Sample.is_expired s now then [Violation.Expired] else []

/-- Rule 2 (expiry) warnings. -/
def expiryRuleWarnings (s : Sample) (now : Int) : List Warning :=
  if Sample.is_expired s now then []
  else
    match s.metadata.expiry_date with
    | some expiry =>
      if numDaysOfNanos (expiry - now) ≤ 30 ∧ numDaysOfNanos (expiry - now) > 0 then
        [Warning.ApproachingExpiry]
      else []
    | none => []

/-- Rule 3 (status) violations. -/
def statusRuleViolations (s : Sample) : List Violation :=
  if s.status = SampleStatus.Compromised then [Violation.StatusInvalid] else []

/-- Rule 4 (read count) violations. -/
def readCountRuleViolations (v : IntegrityValidator) (s : Sample) : List Violation :=
  if s.read_count > v.max_read_count then [Violation.ReadCountAnomaly] else []

/-- Rule 4 (read count) warnings. -/
def readCountRuleWarnings (v : IntegrityValidator) (s : Sample) : List Warning :=
  if s.read_count > v.max_read_count then []
  else if s.read_count > v.max_read_count / 2 then [Warning.HighReadCount]
  else []

/-- Rule 5 (timestamp) violations. -/
def timestampRuleViolations (s : Sample) (now : Int) : List Violation :=
  if s.last_updated > now then [Violation.TimestampAnomaly] else []

/-- Rule 6 (declared temperature range) violations. -/
def temperatureRuleViolations (s : Sample) : List Violation :=
  match s.metadata.temperature_range with
  | some (min_temp, max_temp) =>
    if min_temp ≥ max_temp then [Violation.TemperatureOutOfRange] else []
  | none => []

/-! ## Helper lemmas -/

theorem ite_append_singleton {α : Type} (c : Prop) [Decidable c] (X l : List α) :
    (if c then X ++ l else X) = X ++ (if c then l else []) := by
  split <;> simp

theorem ite_skip_append {α : Type} (c c' : Prop) [Decidable c] [Decidable c']
    (X l : List α) :
    (if c then X else if c' then X ++ l else X)
      = X ++ (if c then [] else if c' then l else []) := by
  split
  · simp
  · split <;> simp

theorem ite_skip_append' {α : Type} (c c' : Prop) [Decidable c] [Decidable c']
    (X l : List α) :
    (if c then X else X ++ (if c' then l else []))
      = X ++ (if c then [] else if c' then l else []) := by
  split <;> simp

/-- The validator is the ordered concatenation of the six independent rules. -/
theorem validate_eq (hashF : List Nat → List Nat) (v : IntegrityValidator)
    (s : Sample) (now : Int) :
    IntegrityValidator.validate hashF v s now =
      { is_valid := (checksumRuleViolations hashF s ++ expiryRuleViolations s now
          ++ statusRuleViolations s ++ readCountRuleViolations v s
          ++ timestampRuleViolations s now ++ temperatureRuleViolations s).isEmpty
        violations := checksumRuleViolations hashF s ++ expiryRuleViolations s now
          ++ statusRuleViolations s ++ readCountRuleViolations v s
          ++ timestampRuleViolations s now ++ temperatureRuleViolations s
        warnings := expiryRuleWarnings s now ++ readCountRuleWarnings v s } := by
  rcases hexp : s.metadata.expiry_date with _ | e <;>
    rcases htemp : s.metadata.temperature_range with _ | ⟨mn, mx⟩ <;>
    simp only [IntegrityValidator.validate, checksumRuleViolations,
      expiryRuleViolations, expiryRuleWarnings, statusRuleViolations,
      readCountRuleViolations, readCountRuleWarnings, timestampRuleViolations,
      temperatureRuleViolations, hexp, htemp, ite_append_singleton,
      ite_skip_append, ite_skip_append', ite_self, List.nil_append, List.append_nil]

theorem chunk16Aux_flatten :
    ∀ (fuel : Nat) (l : List Nat), l.length ≤ fuel → (chunk16Aux fuel l).flatten = l := by
  intro fuel
  induction fuel with
  | zero =>
    intro l h
    have hl : l = [] := by
      cases l with
      | nil => rfl
      | cons a t => simp at h
    simp [hl, chunk16Aux]
  | succ n ih =>
    intro l h
    by_cases hl : l = []
    · simp [chunk16Aux, hl]
    · have hpos : 0 < l.length := List.length_pos.mpr hl
      have hdrop : (l.drop 16).length ≤ n := by
        simp only [List.length_drop]; omega
      simp only [chunk16Aux, hl, if_neg, ite_false, List.flatten_cons, ih _ hdrop]
      exact List.take_append_drop 16 l

theorem chunk16_flatten (l : List Nat) : (chunk16 l).flatten = l :=
  chunk16Aux_flatten l.length l le_rfl

theorem chunk16Aux_all16 :
    ∀ (fuel : Nat) (l : List Nat), l.length ≤ fuel → 16 ∣ l.length →
      ∀ c ∈ chunk16Aux fuel l, c.length = 16 := by
  intro fuel
  induction fuel with
  | zero =>
    intro l h _ c hc
    have hl : l = [] := by
      cases l with
      | nil => rfl
      | cons a t => simp at h
    simp [hl, chunk16Aux] at hc
  | succ n ih =>
    intro l h hdvd c hc
    by_cases hl : l = []
    · simp [chunk16Aux, hl] at hc
    · have hpos : 0 < l.length := List.length_pos.mpr hl
      have h16 : 16 ≤ l.length := by
        rcases hdvd with ⟨k, hk⟩
        rcases k with _ | k <;> omega
      simp only [chunk16Aux, hl, ite_false, List.mem_cons] at hc
      rcases hc with hc | hc
      · subst hc; simp [List.length_take]; omega
      · refine ih (l.drop 16) ?_ ?_ c hc
        · simp only [List.length_drop]; omega
        · rcases hdvd with ⟨k, hk⟩
          exact ⟨k - 1, by simp only [List.length_drop]; omega⟩

theorem chunk16_all16 (l : List Nat) (h : 16 ∣ l.length) :
    ∀ c ∈ chunk16 l, c.length = 16 :=
  chunk16Aux_all16 l.length l le_rfl h

theorem chunk16Aux_of_blocks :
    ∀ (bs : List (List Nat)) (fuel : Nat), bs.flatten.length ≤ fuel →
      (∀ b ∈ bs, b.length = 16) → chunk16Aux fuel bs.flatten = bs := by
  intro bs
  induction bs with
  | nil => intro fuel _ _; cases fuel <;> simp [chunk16Aux]
  | cons b bs ih =>
    intro fuel h hall
    have hb : b.length = 16 := hall b (List.mem_cons_self b bs)
    have hflat : (b :: bs).flatten = b ++ bs.flatten := List.flatten_cons ..
    cases fuel with
    | zero =>
      rw [hflat] at h
      simp only [List.length_append, hb] at h
      omega
    | succ n =>
      have hne : (b :: bs).flatten ≠ [] := by
        rw [hflat]
        intro hcon
        have := congrArg List.length hcon
        simp [hb] at this
      simp only [chunk16Aux, hne, ite_false]
      rw [hflat, List.take_left' hb, List.drop_left' hb]
      have hlen : bs.flatten.length ≤ n := by
        rw [hflat] at h
        simp only [List.length_append, hb] at h
        omega
      rw [ih n hlen (fun c hc => hall c (List.mem_cons_of_mem b hc))]

theorem chunk16_of_blocks (bs : List (List Nat)) (hall : ∀ b ∈ bs, b.length = 16) :
    chunk16 bs.flatten = bs :=
  chunk16Aux_of_blocks bs bs.flatten.length le_rfl hall

theorem xorBytes_length (a b : List Nat) :
    (xorBytes a b).length = min a.length b.length := by
  simp [xorBytes]

theorem xorBytes_cancel :
    ∀ (a b : List Nat), a.length = b.length → xorBytes (xorBytes a b) b = a := by
  intro a
  induction a with
  | nil => intro b _; simp [xorBytes]
  | cons x xs ih =>
    intro b h
    cases b with
    | nil => simp at h
    | cons y ys =>
      simp only [xorBytes, List.zipWith_cons_cons, List.cons.injEq]
      refine ⟨Nat.xor_cancel_right _ _, ih ys (by simpa using h)⟩

theorem cbcEncBlocks_all16 (cm : CryptoModel) (key : List Nat)
    (hE : ∀ x, x.length = 16 → (cm.encBlock key x).length = 16) :
    ∀ (bs : List (List Nat)) (prev : List Nat), prev.length = 16 →
      (∀ b ∈ bs, b.length = 16) →
      ∀ c ∈ cbcEncBlocks cm key prev bs, c.length = 16 := by
  intro bs
  induction bs with
  | nil => intro prev _ _ c hc; simp [cbcEncBlocks] at hc
  | cons b bs ih =>
    intro prev hprev hall c hc
    have hb : b.length = 16 := hall b (List.mem_cons_self b bs)
    have hxor : (xorBytes b prev).length = 16 := by
      rw [xorBytes_length, hb, hprev]; exact min_self 16
    have hc1 : (cm.encBlock key (xorBytes b prev)).length = 16 := hE _ hxor
    simp only [cbcEncBlocks, List.mem_cons] at hc
    rcases hc with hc | hc
    · subst hc; exact hc1
    · exact ih _ hc1 (fun x hx => hall x (List.mem_cons_of_mem b hx)) c hc

theorem cbcDecBlocks_cbcEncBlocks (cm : CryptoModel) (key : List Nat)
    (hE : ∀ x, x.length = 16 → (cm.encBlock key x).length = 16)
    (hInv : ∀ x, cm.decBlock key (cm.encBlock key x) = x) :
    ∀ (bs : List (List Nat)) (prev : List Nat), prev.length = 16 →
      (∀ b ∈ bs, b.length = 16) →
      cbcDecBlocks cm key prev (cbcEncBlocks cm key prev bs) = bs := by
  intro bs
  induction bs with
  | nil => intro prev _ _; rfl
  | cons b bs ih =>
    intro prev hprev hall
    have hb : b.length = 16 := hall b (List.mem_cons_self b bs)
    have hxor : (xorBytes b prev).length = 16 := by
      rw [xorBytes_length, hb, hprev]; exact min_self 16
    simp only [cbcEncBlocks, cbcDecBlocks, hInv, List.cons.injEq]
    refine ⟨xorBytes_cancel b prev (by omega), ?_⟩
    exact ih _ (hE _ hxor) (fun x hx => hall x (List.mem_cons_of_mem b hx))

theorem flatten_length_all16 :
    ∀ (cs : List (List Nat)), (∀ c ∈ cs, c.length = 16) →
      cs.flatten.length = 16 * cs.length := by
  intro cs
  induction cs with
  | nil => intro _; simp
  | cons c cs ih =>
    intro hall
    simp only [List.flatten_cons, List.length_append, List.length_cons,
      hall c (List.mem_cons_self c cs),
      ih (fun x hx => hall x (List.mem_cons_of_mem c hx))]
    ring

theorem pad_pkcs7_length (p : List Nat) :
    (RFIDEncryption.pad_pkcs7 p 16).length = p.length + (16 - p.length % 16) := by
  simp [RFIDEncryption.pad_pkcs7]

theorem cbcEncBlocks_length (cm : CryptoModel) (key : List Nat) :
    ∀ (bs : List (List Nat)) (prev : List Nat),
      (cbcEncBlocks cm key prev bs).length = bs.length := by
  intro bs
  induction bs with
  | nil => intro prev; rfl
  | cons b bs ih => intro prev; simp [cbcEncBlocks, ih]

theorem scanPass_nodup (gates : Nat → Bool) :
    ∀ (tags : List SimulatedTag) (k : Nat) (found : List SimulatedTag),
      (found.map SimulatedTag.epc).Nodup →
      (((scanPass gates k tags found).1).map SimulatedTag.epc).Nodup := by
  intro tags
  induction tags with
  | nil => intro k found h; simpa [scanPass] using h
  | cons t rest ih =>
    intro k found h
    by_cases hc : t.rssi > -80 ∧ ¬(found.any (fun f => f.epc == t.epc))
    · rw [scanPass, if_pos hc]
      cases hg : gates k
      · simp only [Bool.false_eq_true, if_neg]
        refine ih (k + 1) (found ++ [t]) ?_
        have hnot : t.epc ∉ found.map SimulatedTag.epc := by
          intro hmem
          rcases List.mem_map.mp hmem with ⟨f, hf, hfe⟩
          exact hc.2 (List.any_eq_true.mpr ⟨f, hf, beq_iff_eq.mpr hfe⟩)
        simp [List.nodup_append, h, hnot]
      · simp only [if_pos]
        exact ih (k + 1) found h
    · rw [scanPass, if_neg hc]
      exact ih k found h

theorem scanLoop_nodup (gates : Nat → Bool) (tags : List SimulatedTag) :
    ∀ (fuel k : Nat) (found : List SimulatedTag),
      (found.map SimulatedTag.epc).Nodup →
      ((scanLoop gates tags fuel k found).map SimulatedTag.epc).Nodup := by
  intro fuel
  induction fuel with
  | zero => intro k found h; simpa [scanLoop] using h
  | succ n ih =>
    intro k found h
    rw [scanLoop]
    split
    · exact ih _ _ (scanPass_nodup gates tags k found h)
    · exact h

theorem scan_tags_nodup (sim : TagSimulator) (gates : Nat → Bool) (fuel : Nat) :
    (((TagSimulator.scan_tags sim gates fuel).1).map SimulatedTag.epc).Nodup :=
  scanLoop_nodup gates sim.tags fuel 0 [] (by simp)

theorem find?_map_update (epc : String) (f : SimulatedTag → SimulatedTag)
    (hf : ∀ u, (f u).epc = u.epc) :
    ∀ (l : List SimulatedTag) (t : SimulatedTag),
      l.find? (fun u => u.epc == epc) = some t →
      (l.map (fun u => if u.epc == epc then f u else u)).find?
          (fun u => u.epc == epc) = some (f t) := by
  intro l
  induction l with
  | nil => intro t h; simp [List.find?] at h
  | cons u l ih =>
    intro t h
    by_cases hu : u.epc = epc
    · have hbeq : (u.epc == epc) = true := beq_iff_eq.mpr hu
      have hbeq2 : ((f u).epc == epc) = true := by rw [hf u]; exact hbeq
      simp only [List.find?, hbeq] at h
      injection h with h
      subst h
      simp [List.find?, hbeq, hbeq2]
    · have hbeq : (u.epc == epc) = false := beq_eq_false_iff_ne.mpr hu
      have hmap : (if (u.epc == epc) = true then f u else u) = u := by simp [hbeq]
      simp only [List.find?, hbeq] at h
      simp only [List.map_cons, hmap]
      simp only [List.find?, hbeq]
      exact ih t h

theorem beBytesOfU64_inj (u1 u2 : Nat) (h1 : u1 < 2 ^ 64) (h2 : u2 < 2 ^ 64)
    (h : beBytesOfU64 u1 = beBytesOfU64 u2) : u1 = u2 := by
  simp only [beBytesOfU64, List.cons.injEq, and_true] at h
  omega

theorem i64ToU64_lt (n : Int) : i64ToU64 n < 2 ^ 64 := by
  have hp : (2 : Int) ^ 64 = 18446744073709551616 := by norm_num
  have hq : (2 : Nat) ^ 64 = 18446744073709551616 := by norm_num
  simp only [i64ToU64, hp, hq]
  omega

theorem i64ToU64_inj (a b : Int)
    (ha1 : -(2 ^ 63) ≤ a) (ha2 : a < 2 ^ 63)
    (hb1 : -(2 ^ 63) ≤ b) (hb2 : b < 2 ^ 63)
    (h : i64ToU64 a = i64ToU64 b) : a = b := by
  have hp : (2 : Int) ^ 64 = 18446744073709551616 := by norm_num
  have hq : (2 : Int) ^ 63 = 9223372036854775808 := by norm_num
  simp only [i64ToU64, hp] at h
  rw [hq] at ha1 ha2 hb1 hb2
  omega

theorem i64BeBytes_inj (a b : Int)
    (ha1 : -(2 ^ 63) ≤ a) (ha2 : a < 2 ^ 63)
    (hb1 : -(2 ^ 63) ≤ b) (hb2 : b < 2 ^ 63)
    (h : i64BeBytes a = i64BeBytes b) : a = b :=
  i64ToU64_inj a b ha1 ha2 hb1 hb2
    (beBytesOfU64_inj _ _ (i64ToU64_lt a) (i64ToU64_lt b) h)

theorem unpadPkcs7_append_replicate (p : List Nat) (n : Nat)
    (h1 : 1 ≤ n) (h16 : n ≤ 16) :
    unpadPkcs7 (p ++ List.replicate n n) = .ok p := by
  have hrep : List.replicate n n ≠ [] := by
    intro h
    have := congrArg List.length h
    simp at this
    omega
  have hlast : (p ++ List.replicate n n).getLast? = some n := by
    rw [List.getLast?_append_of_ne_nil _ hrep]
    cases n with
    | zero => omega
    | succ m => rw [List.replicate_succ', List.getLast?_concat]
  have hlen : (p ++ List.replicate n n).length = p.length + n := by simp
  have hsub : p.length + n - n = p.length := by omega
  have hc : ¬(n = 0 ∨ n > 16 ∨ n > (p ++ List.replicate n n).length) := by
    push_neg
    exact ⟨by omega, by omega, by rw [hlen]; omega⟩
  have hdrop : (p ++ List.replicate n n).drop ((p ++ List.replicate n n).length - n)
      = List.replicate n n := by
    rw [hlen, hsub, List.drop_left]
  have hall : (((p ++ List.replicate n n).drop
      ((p ++ List.replicate n n).length - n)).all (fun x => x = n)) = true := by
    rw [hdrop]
    simp [List.all_eq_true, List.mem_replicate]
  unfold unpadPkcs7
  split
  · rename_i heq
    rw [hlast] at heq
    exact Option.noConfusion heq
  · rename_i n1 heq
    rw [hlast] at heq
    injection heq with heq
    subst heq
    rw [if_neg hc, if_pos hall, hlen, hsub, List.take_left]

theorem unpadPkcs7_pad (p : List Nat) :
    unpadPkcs7 (RFIDEncryption.pad_pkcs7 p 16) = .ok p := by
  have hmod : p.length % 16 < 16 := Nat.mod_lt _ (by norm_num)
  exact unpadPkcs7_append_replicate p _ (by omega) (by omega)

theorem pad_pkcs7_dvd (p : List Nat) :
    16 ∣ (RFIDEncryption.pad_pkcs7 p 16).length := by
  rw [pad_pkcs7_length]
  omega

theorem encrypt_length_eq (cm : CryptoModel) (e : RFIDEncryption) (iv p : List Nat)
    (hiv : iv.length = 16)
    (hE : ∀ x, x.length = 16 → (cm.encBlock e.key x).length = 16) :
    (RFIDEncryption.encrypt cm e iv p).length
      = 16 + (p.length + (16 - p.length % 16)) := by
  have hall := chunk16_all16 _ (pad_pkcs7_dvd p)
  have hallc := cbcEncBlocks_all16 cm e.key hE _ iv hiv hall
  have hcount : 16 * (chunk16 (RFIDEncryption.pad_pkcs7 p 16)).length
      = (RFIDEncryption.pad_pkcs7 p 16).length := by
    have h := congrArg List.length (chunk16_flatten (RFIDEncryption.pad_pkcs7 p 16))
    rw [flatten_length_all16 _ hall] at h
    exact h
  unfold RFIDEncryption.encrypt
  rw [List.length_append, hiv, flatten_length_all16 _ hallc, cbcEncBlocks_length,
    hcount, pad_pkcs7_length]

theorem decrypt_encrypt_eq (cm : CryptoModel) (e : RFIDEncryption) (iv p : List Nat)
    (hiv : iv.length = 16)
    (hE : ∀ x, x.length = 16 → (cm.encBlock e.key x).length = 16)
    (hInv : ∀ x, cm.decBlock e.key (cm.encBlock e.key x) = x) :
    RFIDEncryption.decrypt cm e (RFIDEncryption.encrypt cm e iv p) = .ok p := by
  have hmod : p.length % 16 < 16 := Nat.mod_lt _ (by norm_num)
  have hall := chunk16_all16 _ (pad_pkcs7_dvd p)
  have hallc := cbcEncBlocks_all16 cm e.key hE _ iv hiv hall
  have hflatlen :
      ((cbcEncBlocks cm e.key iv (chunk16 (RFIDEncryption.pad_pkcs7 p 16))).flatten).length
        = (RFIDEncryption.pad_pkcs7 p 16).length := by
    rw [flatten_length_all16 _ hallc, cbcEncBlocks_length]
    have h := congrArg List.length (chunk16_flatten (RFIDEncryption.pad_pkcs7 p 16))
    rw [flatten_length_all16 _ hall] at h
    exact h
  have henc : RFIDEncryption.encrypt cm e iv p
      = iv ++ (cbcEncBlocks cm e.key iv (chunk16 (RFIDEncryption.pad_pkcs7 p 16))).flatten :=
    rfl
  rw [henc]
  unfold RFIDEncryption.decrypt
  have hlen32 : ¬((iv ++ (cbcEncBlocks cm e.key iv
      (chunk16 (RFIDEncryption.pad_pkcs7 p 16))).flatten).length < 32) := by
    rw [List.length_append, hiv, hflatlen, pad_pkcs7_length]
    omega
  rw [if_neg hlen32, List.take_left' hiv, List.drop_left' hiv]
  have hmod16 : ¬(((cbcEncBlocks cm e.key iv
      (chunk16 (RFIDEncryption.pad_pkcs7 p 16))).flatten).length % 16 ≠ 0) := by
    rw [hflatlen, pad_pkcs7_length]
    omega
  rw [if_neg hmod16, chunk16_of_blocks _ hallc,
    cbcDecBlocks_cbcEncBlocks cm e.key hE hInv _ iv hiv hall, chunk16_flatten]
  exact unpadPkcs7_pad p

/-! ## Concrete instantiations used by witnesses -/

/-- Trivial instantiation of the crypto primitives (identity block cipher and
identity hash), used to evaluate theorems at concrete inputs.  The identity
block cipher is a length-preserving 16-byte permutation that is its own
inverse, and the identity hash is injective, so it satisfies every primitive
hypothesis the theorems assume of AES-256 and SHA-256. -/
def idCrypto : CryptoModel :=
  { encBlock := fun _ b => b, decBlock := fun _ b => b, hash := fun l => l }

/-! ## Claims -/

/-- **C5.** For every byte sequence `P` (including the empty sequence), every
key material `K`, and every IV the encryptor may draw,
`decrypt(K, encrypt(K, P))` succeeds and returns exactly `P`.  The
hypotheses state what the source assumes of AES-256: on the derived key it is
a length-preserving map on 16-byte blocks whose decryption inverts its
encryption; the IV drawn by `rand` is 16 bytes. -/
theorem C5_encrypt_decrypt_roundtrip (cm : CryptoModel) (master_key iv p : List Nat)
    (hiv : iv.length = 16)
    (hE : ∀ x, x.length = 16 →
      (cm.encBlock (RFIDEncryption.new cm master_key).key x).length = 16)
    (hInv : ∀ x, cm.decBlock (RFIDEncryption.new cm master_key).key
      (cm.encBlock (RFIDEncryption.new cm master_key).key x) = x) :
    RFIDEncryption.decrypt cm (RFIDEncryption.new cm master_key)
      (RFIDEncryption.encrypt cm (RFIDEncryption.new cm master_key) iv p)
      = .ok p :=
  decrypt_encrypt_eq cm (RFIDEncryption.new cm master_key) iv p hiv hE hInv

theorem C5_encrypt_decrypt_roundtrip_witness :
    RFIDEncryption.decrypt idCrypto (RFIDEncryption.new idCrypto (strBytes "K"))
      (RFIDEncryption.encrypt idCrypto (RFIDEncryption.new idCrypto (strBytes "K"))
        (List.replicate 16 0) [7, 8, 9])
      = .ok [7, 8, 9] :=
  C5_encrypt_decrypt_roundtrip idCrypto (strBytes "K") (List.replicate 16 0) [7, 8, 9]
    (by simp) (fun x hx => hx) (fun x => rfl)

/-- **C7.** For every plaintext of length `len` and every key material,
`encrypt` succeeds (the embedding is total because the source's two error
paths are unreachable at the fixed key/IV sizes) and its output has length
exactly `16 + ceil((len+1)/16)*16` bytes: a 16-byte IV plus at least one full
padded block, with already-aligned and empty inputs gaining a whole extra
padding block. -/
theorem C7_encrypt_length (cm : CryptoModel) (e : RFIDEncryption) (iv p : List Nat)
    (hiv : iv.length = 16)
    (hE : ∀ x, x.length = 16 → (cm.encBlock e.key x).length = 16) :
    (RFIDEncryption.encrypt cm e iv p).length
      = 16 + ((p.length + 1 + 15) / 16) * 16 := by
  rw [encrypt_length_eq cm e iv p hiv hE]
  have hmod : p.length % 16 < 16 := Nat.mod_lt _ (by norm_num)
  omega

theorem C7_encrypt_length_witness :
    (RFIDEncryption.encrypt idCrypto (RFIDEncryption.new idCrypto [])
        (List.replicate 16 0) (List.replicate 16 1)).length
      = 16 + ((16 + 1 + 15) / 16) * 16 :=
  C7_encrypt_length idCrypto (RFIDEncryption.new idCrypto [])
    (List.replicate 16 0) (List.replicate 16 1) (by simp) (fun x hx => hx)

/-- **C8.** For every input buffer shorter than 32 bytes and every key
material, `decrypt` returns an `EncryptionError` value (with the source's
message) and never panics — the embedding is a total function and the
short-input branch returns before any slicing. -/
theorem C8_decrypt_short (cm : CryptoModel) (e : RFIDEncryption) (blob : List Nat)
    (h : blob.length < 32) :
    RFIDEncryption.decrypt cm e blob
      = .error (.EncryptionError
          "Ciphertext too short (need at least 32 bytes: 16 IV + 16 encrypted)") := by
  unfold RFIDEncryption.decrypt
  rw [if_pos h]

theorem C8_decrypt_short_witness :
    RFIDEncryption.decrypt idCrypto (RFIDEncryption.new idCrypto []) [1, 2, 3]
      = .error (.EncryptionError
          "Ciphertext too short (need at least 32 bytes: 16 IV + 16 encrypted)") :=
  C8_decrypt_short idCrypto (RFIDEncryption.new idCrypto []) [1, 2, 3] (by simp)

/-- **C4.** For every tag produced by `encode` (`RFIDTag::new`), flipping any
single bit of the encrypted payload makes `decode` (`decrypt_payload`) fail
with `TagMemoryError` from the recomputed-digest mismatch — for *every*
possible decryption behaviour, since the error branch returns before
decryption is attempted — and never returns a wrong plaintext silently.  The
hypothesis is SHA-256 collision-freeness on the inputs at hand (injectivity
of the abstract hash). -/
theorem C4_tamper_detection (cm : CryptoModel) (e : RFIDEncryption) (iv : List Nat)
    (ts : Nat) (tag_id : String) (payload : List Nat) (i b : Nat)
    (hInj : Function.Injective cm.hash)
    (hi : i < (RFIDTag.new cm e iv ts tag_id payload).memory_layout.payload.length) :
    RFIDTag.decrypt_payload cm
        (tamperPayload (RFIDTag.new cm e iv ts tag_id payload) i b) e
      = .error (.TagMemoryError "Integrity hash mismatch - tag may be corrupted") := by
  have hpay : (tamperPayload (RFIDTag.new cm e iv ts tag_id payload) i b).memory_layout.payload
      = flipBit (RFIDEncryption.encrypt cm e iv payload) i b := rfl
  have hint : (tamperPayload (RFIDTag.new cm e iv ts tag_id payload) i b).memory_layout.integrity_hash
      = cm.hash (RFIDEncryption.encrypt cm e iv payload) := rfl
  have hi2 : i < (RFIDEncryption.encrypt cm e iv payload).length := hi
  set enc := RFIDEncryption.encrypt cm e iv payload with henc
  have hne : flipBit enc i b ≠ enc := by
    intro h
    have h1 : (flipBit enc i b)[i]? = some (enc.getD i 0 ^^^ 2 ^ b) :=
      List.getElem?_set_self hi2
    rw [h, List.getElem?_eq_getElem hi2] at h1
    injection h1 with h1
    have h2 : enc.getD i 0 = enc[i] := by
      rw [List.getD_eq_getElem?_getD, List.getElem?_eq_getElem hi2]
      rfl
    rw [h2] at h1
    have h6 : enc[i] ^^^ enc[i] = enc[i] ^^^ (enc[i] ^^^ 2 ^ b) :=
      congrArg (fun y => enc[i] ^^^ y) h1
    rw [Nat.xor_self, ← Nat.xor_assoc, Nat.xor_self, Nat.zero_xor] at h6
    exact absurd h6.symm (Nat.pos_iff_ne_zero.mp (pow_pos (by norm_num) b))
  have hcond : cm.hash (flipBit enc i b) ≠ cm.hash enc :=
    fun hcontra => hne (hInj hcontra)
  unfold RFIDTag.decrypt_payload
  rw [hpay, hint, if_pos hcond]

theorem C4_tamper_detection_witness :
    RFIDTag.decrypt_payload idCrypto
        (tamperPayload
          (RFIDTag.new idCrypto (RFIDEncryption.new idCrypto []) (List.replicate 16 0)
            0 "T1" []) 0 0)
        (RFIDEncryption.new idCrypto [])
      = .error (.TagMemoryError "Integrity hash mismatch - tag may be corrupted") :=
  C4_tamper_detection idCrypto (RFIDEncryption.new idCrypto []) (List.replicate 16 0)
    0 "T1" [] 0 0 (fun _ _ h => h) (by decide)

/-- A concrete visible tag used by the simulator witnesses. -/
def witnessTag : SimulatedTag :=
  { epc := "E1", tag_id := "T1", data := [1], rssi := -60, antenna := 1,
    read_count := 0, last_read := none, error_rate := 0 }

/-- A concrete one-tag simulator used by the simulator witnesses. -/
def witnessSim : TagSimulator :=
  { tags := [witnessTag], read_delay := 10, write_delay := 50, network_delay := 5 }

/-- **C9.** For every simulator state, gate stream and scan duration (fuel),
`scan_tags` returns a list of tags with pairwise-distinct EPC identifiers and
leaves the whole registry — every tag's `read_count`, `last_read` and payload
bytes — unchanged; by contrast an addressed `read_tag` (error gate not
firing) increments the addressed tag's counter and stamps `last_read`. -/
theorem C9_scan_distinct_pure (sim : TagSimulator) (gates : Nat → Bool) (fuel : Nat) :
    (((TagSimulator.scan_tags sim gates fuel).1).map SimulatedTag.epc).Nodup
    ∧ (TagSimulator.scan_tags sim gates fuel).2 = sim
    ∧ (∀ (sim2 : TagSimulator) (now : Int) (epc : String) (t : SimulatedTag),
        sim2.tags.find? (fun u => u.epc == epc) = some t →
        ((TagSimulator.read_tag sim2 false now epc).2.tags.find?
            (fun u => u.epc == epc))
          = some { t with read_count := t.read_count + 1, last_read := some now }) := by
  refine ⟨scan_tags_nodup sim gates fuel, rfl, ?_⟩
  intro sim2 now epc t ht
  unfold TagSimulator.read_tag
  split
  · rename_i heq
    rw [ht] at heq
    exact Option.noConfusion heq
  · rename_i t1 heq
    rw [ht] at heq
    injection heq with heq
    subst heq
    simp only [Bool.false_eq_true, if_neg, ite_false]
    exact find?_map_update epc
      (fun u => { u with read_count := u.read_count + 1, last_read := some now })
      (fun u => rfl) sim2.tags t ht

theorem C9_scan_distinct_pure_witness :
    ((TagSimulator.read_tag witnessSim false 5 "E1").2.tags.find?
        (fun u => u.epc == "E1"))
      = some { epc := "E1", tag_id := "T1", data := [1], rssi := -60, antenna := 1,
               read_count := 1, last_read := some 5, error_rate := 0 } :=
  (C9_scan_distinct_pure witnessSim (fun _ => false) 1).2.2 witnessSim 5 "E1"
    witnessTag rfl

/-- A tag visible only to the Zebra adapter's simulator, for the C1
counterexample. -/
def zebraOnlyTag : SimulatedTag :=
  { epc := "Z1", tag_id := "TZ", data := [2], rssi := -60, antenna := 1,
    read_count := 0, last_read := none, error_rate := 0 }

/-- A driver whose Impinj simulator is empty while the Zebra simulator holds
one perfectly visible tag. -/
def zebraOnlyDriver : HardwareDriver :=
  { impinj_reader := ImpinjSpeedwayReader.new
    zebra_reader :=
      { ZebraFX9600Reader.new "FX9600-000001" with
          simulator := { tags := [zebraOnlyTag], read_delay := 12,
                         write_delay := 90, network_delay := 6 } }
    events := [] }

/-- **C1 — counterexample.**  With an empty Impinj registry and a Zebra
registry holding the visible tag `"Z1"` (error gates never firing, ample
fuel), the Zebra scan performed inside `perform_inventory_scan` observes
`"Z1"`, yet the returned identifier list is empty: the EPCs found by the
Zebra adapter's scan are *not* part of the return value, refuting the claim
that every EPC found by either scan appears in the returned list. -/
theorem C1_counterexample :
    (HardwareDriver.perform_inventory_scan zebraOnlyDriver
        (fun _ => false) (fun _ => false) 1 1).1 = []
    ∧ ((TagSimulator.scan_tags zebraOnlyDriver.zebra_reader.simulator
          (fun _ => false) 1).1.map SimulatedTag.epc) = ["Z1"] :=
  ⟨rfl, rfl⟩

/-- **C1 — amended.**  `perform_inventory_scan` runs the Impinj adapter's
scan and then the Zebra adapter's scan sequentially, but returns only the
identifiers observed by the *Impinj* scan (each appearing exactly once); the
Zebra scan's results are only counted in the event log. -/
theorem C1_returns_impinj_epcs_only (d : HardwareDriver)
    (gatesI gatesZ : Nat → Bool) (fuelI fuelZ : Nat) :
    (HardwareDriver.perform_inventory_scan d gatesI gatesZ fuelI fuelZ).1
      = ((TagSimulator.scan_tags d.impinj_reader.simulator gatesI fuelI).1).map
          SimulatedTag.epc
    ∧ (HardwareDriver.perform_inventory_scan d gatesI gatesZ fuelI fuelZ).1.Nodup :=
  ⟨rfl, scan_tags_nodup d.impinj_reader.simulator gatesI fuelI⟩

/-- **C2 — counterexample.**  On a freshly constructed reader (connected flag
`false`), `GetStatus` does *not* produce a success response: in both
adapters the `_ if !self.connected` guard precedes the `GetStatus` arm, so
`GetStatus` fails with "Reader not connected", refuting the claim that
`GetStatus` is exempt while the flag is false. -/
theorem C2_counterexample :
    ImpinjSpeedwayReader.new.connected = false
    ∧ (ImpinjSpeedwayReader.send_command ImpinjSpeedwayReader.new false 0
        ReaderCommand.GetStatus).1
      = ProtocolResponse.mkError "Reader not connected"
    ∧ (ZebraFX9600Reader.new "FX9600-000001").connected = false
    ∧ (ZebraFX9600Reader.send_command (ZebraFX9600Reader.new "FX9600-000001") false 0
        ReaderCommand.GetStatus).1
      = ProtocolResponse.mkError "Reader not connected" :=
  ⟨rfl, rfl, rfl, rfl⟩

/-- **C2 — amended.**  For each vendor adapter, while the internal connected
flag is false, `send_command` on every command except `Initialize` —
`GetStatus` included — yields a `ProtocolResponse` with `success = false` and
error "Reader not connected", leaving the state unchanged; `Initialize`
alone succeeds while the flag is false, and sets it. -/
theorem C2_not_connected_gate (impinj : ImpinjSpeedwayReader)
    (zebra : ZebraFX9600Reader) (gate : Bool) (now : Int) (cmd : ReaderCommand)
    (hI : impinj.connected = false) (hZ : zebra.connected = false)
    (hcmd : cmd ≠ ReaderCommand.Initialize) :
    ImpinjSpeedwayReader.send_command impinj gate now cmd
      = (ProtocolResponse.mkError "Reader not connected", impinj)
    ∧ ZebraFX9600Reader.send_command zebra gate now cmd
      = (ProtocolResponse.mkError "Reader not connected", zebra)
    ∧ (ImpinjSpeedwayReader.send_command impinj gate now ReaderCommand.Initialize).1.success
      = true
    ∧ (ImpinjSpeedwayReader.send_command impinj gate now ReaderCommand.Initialize).2.connected
      = true
    ∧ (ZebraFX9600Reader.send_command zebra gate now ReaderCommand.Initialize).1.success
      = true
    ∧ (ZebraFX9600Reader.send_command zebra gate now ReaderCommand.Initialize).2.connected
      = true := by
  refine ⟨?_, ?_, rfl, rfl, rfl, rfl⟩ <;>
    cases cmd <;>
    simp_all [ImpinjSpeedwayReader.send_command, ZebraFX9600Reader.send_command]

theorem C2_not_connected_gate_witness :
    ImpinjSpeedwayReader.send_command ImpinjSpeedwayReader.new false 0
        ReaderCommand.StartInventory
      = (ProtocolResponse.mkError "Reader not connected", ImpinjSpeedwayReader.new)
    ∧ ZebraFX9600Reader.send_command (ZebraFX9600Reader.new "FX9600-000001") false 0
        ReaderCommand.StartInventory
      = (ProtocolResponse.mkError "Reader not connected",
         ZebraFX9600Reader.new "FX9600-000001") := by
  have h := C2_not_connected_gate ImpinjSpeedwayReader.new
    (ZebraFX9600Reader.new "FX9600-000001") false 0 ReaderCommand.StartInventory
    rfl rfl (by decide)
  exact ⟨h.1, h.2.1⟩

/-- Metadata of a sample that expires one hour from the epoch. -/
def nearExpiryMetadata : SampleMetadata :=
  { batch_number := "B1", production_date := 0,
    expiry_date := some (3600 * 1000000000),
    temperature_range := some (2, 8), storage_conditions := "Cold",
    manufacturer := "M", product_line := "P" }

/-- A sample one hour from expiry at `now = 0`, otherwise unremarkable. -/
def nearExpirySample : Sample :=
  { id := "u-1", sample_id := "S1", status := SampleStatus.Stored,
    metadata := nearExpiryMetadata, created_at := 0, last_updated := 0,
    read_count := 0, location := none,
    integrity_checksum :=
      Sample.calculate_checksum (fun l => l) "S1" nearExpiryMetadata 0 }

/-- **C3 — counterexample.**  A sample whose expiry is one hour in the future
(strictly future, and well within 30 days of `now = 0`) receives *no*
`ApproachingExpiry` warning: the source computes
`(expiry - now).num_days() = 0` by whole-day truncation, and the guard
`days_until_expiry > 0` rejects it, refuting the claim that every
strictly-future expiry within 30 days warns. -/
theorem C3_counterexample :
    (0 : Int) < 3600 * 1000000000
    ∧ (3600 * 1000000000 : Int) ≤ 30 * 86400 * 1000000000
    ∧ nearExpirySample.metadata.expiry_date = some (3600 * 1000000000)
    ∧ Warning.ApproachingExpiry ∉
        (IntegrityValidator.validate (fun l => l) IntegrityValidator.new
          nearExpirySample 0).warnings := by
  refine ⟨by norm_num, by norm_num, rfl, ?_⟩
  decide

/-- **C3 — amended.**  For a sample with an expiry date: if `now` is strictly
past the expiry, validation yields an `Expired` violation and no
`ApproachingExpiry` warning; if not expired, there is no `Expired` violation,
and the `ApproachingExpiry` warning appears *iff* the whole-day truncation of
`expiry - now` lies in `[1, 30]` — in particular a strictly-future expiry
less than one full day away produces no warning. -/
theorem C3_expiry_rule (hashF : List Nat → List Nat) (v : IntegrityValidator)
    (s : Sample) (now e : Int) (hexp : s.metadata.expiry_date = some e) :
    (now > e →
      Violation.Expired ∈ (IntegrityValidator.validate hashF v s now).violations
      ∧ Warning.ApproachingExpiry ∉
          (IntegrityValidator.validate hashF v s now).warnings)
    ∧ (¬now > e →
      Violation.Expired ∉ (IntegrityValidator.validate hashF v s now).violations
      ∧ (Warning.ApproachingExpiry ∈
            (IntegrityValidator.validate hashF v s now).warnings
          ↔ numDaysOfNanos (e - now) ≤ 30 ∧ numDaysOfNanos (e - now) > 0)) := by
  have hv := validate_eq hashF v s now
  constructor
  · intro h
    have hisExp : Sample.is_expired s now = true := by
      simp [Sample.is_expired, hexp, h]
    rw [hv]
    constructor
    · simp [checksumRuleViolations, expiryRuleViolations, statusRuleViolations,
        readCountRuleViolations, timestampRuleViolations, temperatureRuleViolations,
        hisExp]
    · simp only [expiryRuleWarnings, readCountRuleWarnings, hisExp]
      split_ifs <;> simp
  · intro h
    have hisExp : Sample.is_expired s now = false := by
      simp only [Sample.is_expired, hexp]
      simpa using h
    rw [hv]
    constructor
    · rcases htr : s.metadata.temperature_range with _ | ⟨mn, mx⟩ <;>
        simp only [checksumRuleViolations, expiryRuleViolations, statusRuleViolations,
          readCountRuleViolations, timestampRuleViolations, temperatureRuleViolations,
          hisExp, htr, Bool.false_eq_true, if_false] <;>
        split_ifs <;> simp
    · simp only [expiryRuleWarnings, readCountRuleWarnings, hisExp, hexp,
        Bool.false_eq_true, if_false]
      by_cases hc : numDaysOfNanos (e - now) ≤ 30 ∧ numDaysOfNanos (e - now) > 0
      · simp [hc]
      · simp only [hc, if_false]
        split_ifs <;> simp [hc]

/-- Metadata of a sample that expires five days from the epoch. -/
def soonExpiryMetadata : SampleMetadata :=
  { batch_number := "B2", production_date := 0,
    expiry_date := some (5 * 86400 * 1000000000),
    temperature_range := some (2, 8), storage_conditions := "Cold",
    manufacturer := "M", product_line := "P" }

/-- A sample five whole days from expiry at `now = 0`. -/
def soonExpirySample : Sample :=
  { id := "u-2", sample_id := "S2", status := SampleStatus.Stored,
    metadata := soonExpiryMetadata, created_at := 0, last_updated := 0,
    read_count := 0, location := none,
    integrity_checksum :=
      Sample.calculate_checksum (fun l => l) "S2" soonExpiryMetadata 0 }

theorem C3_expiry_rule_witness :
    Warning.ApproachingExpiry ∈
      (IntegrityValidator.validate (fun l => l) IntegrityValidator.new
        soonExpirySample 0).warnings
    ∧ Violation.Expired ∉
      (IntegrityValidator.validate (fun l => l) IntegrityValidator.new
        soonExpirySample 0).violations := by
  have h := (C3_expiry_rule (fun l => l) IntegrityValidator.new soonExpirySample
    0 (5 * 86400 * 1000000000) rfl).2 (by decide)
  exact ⟨h.2.mpr (by decide), h.1⟩

/-- **C6.**  The validator is the ordered concatenation of six rules, each a
function of the sample alone (with the validator's constants and the clock):
no rule's violation or warning can suppress another rule's.  In particular a
sample that is simultaneously expired and `Compromised` validates to a result
containing both `Expired` and `StatusInvalid`. -/
theorem C6_validator_independence (hashF : List Nat → List Nat)
    (v : IntegrityValidator) (s : Sample) (now : Int) :
    ((IntegrityValidator.validate hashF v s now).violations
      = checksumRuleViolations hashF s ++ expiryRuleViolations s now
        ++ statusRuleViolations s ++ readCountRuleViolations v s
        ++ timestampRuleViolations s now ++ temperatureRuleViolations s)
    ∧ ((IntegrityValidator.validate hashF v s now).warnings
      = expiryRuleWarnings s now ++ readCountRuleWarnings v s)
    ∧ (Sample.is_expired s now = true → s.status = SampleStatus.Compromised →
        Violation.Expired ∈ (IntegrityValidator.validate hashF v s now).violations
        ∧ Violation.StatusInvalid ∈
            (IntegrityValidator.validate hashF v s now).violations) := by
  have hv := validate_eq hashF v s now
  refine ⟨by rw [hv], by rw [hv], ?_⟩
  intro h1 h2
  rw [hv]
  constructor
  · simp [checksumRuleViolations, expiryRuleViolations, statusRuleViolations,
      readCountRuleViolations, timestampRuleViolations, temperatureRuleViolations, h1]
  · simp [checksumRuleViolations, expiryRuleViolations, statusRuleViolations,
      readCountRuleViolations, timestampRuleViolations, temperatureRuleViolations, h2]

/-- Metadata of a sample already expired at `now = 1 s`. -/
def expiredCompromisedMetadata : SampleMetadata :=
  { batch_number := "B3", production_date := 0, expiry_date := some 0,
    temperature_range := some (2, 8), storage_conditions := "Cold",
    manufacturer := "M", product_line := "P" }

/-- A sample both expired and `Compromised`. -/
def expiredCompromisedSample : Sample :=
  { id := "u-3", sample_id := "S3", status := SampleStatus.Compromised,
    metadata := expiredCompromisedMetadata, created_at := 0, last_updated := 0,
    read_count := 0, location := none,
    integrity_checksum :=
      Sample.calculate_checksum (fun l => l) "S3" expiredCompromisedMetadata 0 }

theorem C6_validator_independence_witness :
    Violation.Expired ∈
      (IntegrityValidator.validate (fun l => l) IntegrityValidator.new
        expiredCompromisedSample 1000000000).violations
    ∧ Violation.StatusInvalid ∈
      (IntegrityValidator.validate (fun l => l) IntegrityValidator.new
        expiredCompromisedSample 1000000000).violations :=
  (C6_validator_independence (fun l => l) IntegrityValidator.new
    expiredCompromisedSample 1000000000).2.2 (by decide) rfl

/-- **C10.**  `update_location` and `increment_read_count` stamp
`last_updated` without recomputing `integrity_checksum`; so for any sample
that currently passes `verify_integrity`, after either call
`verify_integrity` returns `false` whenever the new `last_updated` falls in a
different Unix second (floor of the nanosecond instant) than the timestamp
the stored checksum was computed from — and the validator then reports
`ChecksumMismatch` for the untampered sample.  Hypotheses: the abstract
SHA-256 is collision-free on the inputs at hand (injective), and both
second counts lie in the `i64` range `timestamp()` returns. -/
theorem C10_stale_checksum (hashF : List Nat → List Nat) (v : IntegrityValidator)
    (s : Sample) (location : String) (now now2 : Int)
    (hInj : Function.Injective hashF)
    (hok : Sample.verify_integrity hashF s = true)
    (hsec : Int.fdiv now 1000000000 ≠ Int.fdiv s.last_updated 1000000000)
    (hr1 : -(2 ^ 63) ≤ Int.fdiv now 1000000000)
    (hr2 : Int.fdiv now 1000000000 < 2 ^ 63)
    (hr3 : -(2 ^ 63) ≤ Int.fdiv s.last_updated 1000000000)
    (hr4 : Int.fdiv s.last_updated 1000000000 < 2 ^ 63) :
    Sample.verify_integrity hashF (Sample.update_location s location now) = false
    ∧ Violation.ChecksumMismatch ∈
        (IntegrityValidator.validate hashF v
          (Sample.update_location s location now) now2).violations
    ∧ Sample.verify_integrity hashF (Sample.increment_read_count s now) = false
    ∧ Violation.ChecksumMismatch ∈
        (IntegrityValidator.validate hashF v
          (Sample.increment_read_count s now) now2).violations := by
  have hstored : Sample.calculate_checksum hashF s.sample_id s.metadata s.last_updated
      = s.integrity_checksum := by
    have h := hok
    unfold Sample.verify_integrity at h
    exact beq_iff_eq.mp h
  have hcalc : Sample.calculate_checksum hashF s.sample_id s.metadata now
      ≠ s.integrity_checksum := by
    intro hcontra
    rw [← hstored] at hcontra
    unfold Sample.calculate_checksum at hcontra
    have h1 := hInj hcontra
    simp only [List.append_assoc] at h1
    have h2 : i64BeBytes (Int.fdiv now 1000000000)
        = i64BeBytes (Int.fdiv s.last_updated 1000000000) :=
      List.append_cancel_left (List.append_cancel_left h1)
    exact hsec (i64BeBytes_inj _ _ hr1 hr2 hr3 hr4 h2)
  have hfail1 : Sample.verify_integrity hashF (Sample.update_location s location now)
      = false := by
    unfold Sample.verify_integrity Sample.update_location
    exact beq_eq_false_iff_ne.mpr hcalc
  have hfail2 : Sample.verify_integrity hashF (Sample.increment_read_count s now)
      = false := by
    unfold Sample.verify_integrity Sample.increment_read_count
    exact beq_eq_false_iff_ne.mpr hcalc
  refine ⟨hfail1, ?_, hfail2, ?_⟩
  · rw [validate_eq]
    simp [checksumRuleViolations, hfail1]
  · rw [validate_eq]
    simp [checksumRuleViolations, hfail2]

/-- Metadata of the stale-checksum witness sample. -/
def staleMetadata : SampleMetadata :=
  { batch_number := "B4", production_date := 0, expiry_date := none,
    temperature_range := none, storage_conditions := "Cold",
    manufacturer := "M", product_line := "P" }

/-- A sample whose stored checksum matches `last_updated = 0`. -/
def staleSample : Sample :=
  { id := "u-4", sample_id := "S4", status := SampleStatus.Stored,
    metadata := staleMetadata, created_at := 0, last_updated := 0,
    read_count := 0, location := none,
    integrity_checksum :=
      Sample.calculate_checksum (fun l => l) "S4" staleMetadata 0 }

theorem C10_stale_checksum_witness :
    Sample.verify_integrity (fun l => l)
        (Sample.update_location staleSample "Warehouse B" 1000000000) = false
    ∧ Violation.ChecksumMismatch ∈
        (IntegrityValidator.validate (fun l => l) IntegrityValidator.new
          (Sample.update_location staleSample "Warehouse B" 1000000000)
          1000000000).violations := by
  have h := C10_stale_checksum (fun l => l) IntegrityValidator.new staleSample
    "Warehouse B" 1000000000 1000000000 (fun _ _ hx => hx) (by decide) (by decide)
    (by decide) (by decide) (by decide) (by decide)
  exact ⟨h.1, h.2.1⟩

end SampleGuard
